import Mathlib

/-!
Verification of the Job/Queue/Worker Introspection and Management Layer of
rq-dashboard-fast against its design specification.

The repository ships the HTTP facade (rq_dashboard_fast.py); the core it
calls (utils/jobs.py, utils/queues.py, utils/workers.py) is modelled from
the specification, as marked on each definition.  The facade definitions
(authentication, endpoint table, endpoint error wrapping, query defaults)
are embedded directly from rq_dashboard_fast.py.
-/

namespace RQDash

/-- Job states tracked by per-queue registries: the six registry kinds the
specification enumerates for queue statistics and job listing. -/
inductive JobState where
  | queued
  | started
  | finished
  | failed
  | deferred
  | scheduled
deriving DecidableEq, Repr

/-- The six registry kinds of a queue, in the order the specification lists
them. -/
def JobState.all : List JobState :=
  [.queued, .started, .finished, .failed, .deferred, .scheduled]

/-- A stored opaque field blob: either deserializable to a value or
corrupt (deserialization fails). -/
inductive Blob where
  | good (s : String)
  | bad
deriving DecidableEq, Repr

/-- Deserialization of a stored blob; `none` means the field failed to
deserialize. -/
def Blob.decode : Blob → Option String
  | .good s => some s
  | .bad => none

/-- A job primary record as held in the store: its queue, status, invocation
payload blobs and enqueue time. -/
structure JobRecord where
  queue_name : String
  status : JobState
  func : String
  args : Blob
  kwargs : Blob
  result : Blob
  enqueued_at : Option Nat
deriving DecidableEq, Repr

/-- A worker hash record: state, polled queues, current job. -/
structure WorkerInfo where
  state : String
  queue_names : List String
  current_job_id : Option String
deriving DecidableEq, Repr

/-- A worker as reported: its registry name paired with its hash record. -/
structure WorkerData where
  name : String
  info : WorkerInfo
deriving DecidableEq, Repr

/-- The shared Redis-backed store as the layer sees it: known queue names,
one ordered id list per (queue, state) registry, job primary records, the
worker name registry and per-worker hash records.  The `reachable` flag
models whether the store answers at all; every operation surfaces
`serviceUnavailable` when it does not. -/
structure Store where
  reachable : Bool
  queues : List String
  registry : String → JobState → List String
  jobRecord : String → Option JobRecord
  workerNames : List String
  workerHash : String → Option WorkerInfo

/-- Well-formedness of a store, as the data model describes it: a job with a
primary record is only ever a member of registries of its own queue, and any
queue with a non-empty registry is a known (discoverable) queue. -/
def Store.WF (st : Store) : Prop :=
  (∀ id r, st.jobRecord id = some r →
    ∀ q s, id ∈ st.registry q s → q = r.queue_name) ∧
  (∀ q s, st.registry q s ≠ [] → q ∈ st.queues)

/-- Error taxonomy of the core layer, from the specification. -/
inductive CoreError where
  | notFound
  | invalidArgument
  | dataCorruption
  | serviceUnavailable
deriving DecidableEq, Repr

/-- Insert a name into a name-sorted list, keeping it sorted. -/
def insertName (x : String) : List String → List String
  | [] => [x]
  | y :: ys => if x ≤ y then x :: y :: ys else y :: insertName x ys

/-- Sort queue names into queue-name order. -/
def sortQueueNames (l : List String) : List String :=
  l.foldr insertName []

/-- Page numbers are 1-indexed and clamped to be at least 1. -/
def clampPage (p : Int) : Nat :=
  (max p 1).toNat

/-- The 1-indexed page of an ordered id list: ids past the end give an empty
page, never an error. -/
def paginate (l : List String) (page : Int) (pageSize : Nat) : List String :=
  (l.drop ((clampPage page - 1) * pageSize)).take pageSize

/-- Modelled from the spec: `list_registry_page` of the Job Repository
(utils/jobs.py is absent from the sources).  Returns the 1-indexed page of
job ids of the (queue, status) registry in registry order, together with the
total cardinality of the registry. -/
def list_registry_page (st : Store) (q : String) (s : JobState)
    (page : Int) (pageSize : Nat) : List String × Nat :=
  (paginate (st.registry q s) page pageSize, (st.registry q s).length)

/-- Map a state filter string to a registry kind; unknown strings are
rejected upstream with `invalidArgument`. -/
def stateOfString : String → Option JobState
  | "queued" => some .queued
  | "started" => some .started
  | "finished" => some .finished
  | "failed" => some .failed
  | "deferred" => some .deferred
  | "scheduled" => some .scheduled
  | _ => none

/-- Modelled from the spec: the state filter of the Job Lister.  The filter
value "all" selects the queued registry only, not a union of every state. -/
def resolveState (s : String) : Option JobState :=
  if s = "all" then some .queued else stateOfString s

/-- Modelled from the spec: the queue filter of the Job Lister.  "all"
resolves to every known queue in queue-name order; a specific name restricts
to that one queue. -/
def resolveQueues (st : Store) (qf : String) : List String :=
  if qf = "all" then sortQueueNames st.queues else [qf]

/-- A page of job ids together with the total cardinality the filters
resolve to. -/
structure JobsPage where
  ids : List String
  total_count : Nat
deriving DecidableEq, Repr

/-- Modelled from the spec: `get_jobs` of the Job Lister (utils/jobs.py is
absent from the sources).  Resolves the queue and state filters, unions the
resolved registries in queue-name order, and applies the pagination
contract; unknown filter values give `invalidArgument` and an unreachable
store gives `serviceUnavailable`. -/
def get_jobs (st : Store) (queueF stateF : String) (page : Int)
    (pageSize : Nat) : Except CoreError JobsPage :=
  if st.reachable = false then .error .serviceUnavailable
  else
    match resolveState stateF with
    | none => .error .invalidArgument
    | some s =>
      if queueF ≠ "all" ∧ queueF ∉ st.queues then .error .invalidArgument
      else
        let ids := (resolveQueues st queueF).flatMap (fun q => st.registry q s)
        .ok ⟨paginate ids page pageSize, ids.length⟩

/-- A fully deserialized job view: best-effort field values and a
data-corruption marker set when any payload field failed to deserialize. -/
structure JobDataDetailed where
  id : String
  queue_name : String
  status : JobState
  func : String
  args : Option String
  kwargs : Option String
  result : Option String
  corruption : Bool
deriving DecidableEq, Repr

/-- Modelled from the spec: `get_job` of the Job Repository (utils/jobs.py
is absent from the sources).  An absent record key gives `notFound`; a field
whose blob fails to deserialize is reported as `none` with the corruption
marker set, the rest of the record is still returned. -/
def get_job (st : Store) (id : String) : Except CoreError JobDataDetailed :=
  if st.reachable = false then .error .serviceUnavailable
  else
    match st.jobRecord id with
    | none => .error .notFound
    | some r =>
      let a := r.args.decode
      let k := r.kwargs.decode
      let res := r.result.decode
      .ok { id := id, queue_name := r.queue_name, status := r.status,
            func := r.func, args := a, kwargs := k, result := res,
            corruption := a.isNone || k.isNone || res.isNone }

/-- Per-state registry cardinalities of one queue, with exactly the six
keys queued, started, finished, failed, deferred, scheduled. -/
structure StateCounts where
  queued : Nat
  started : Nat
  finished : Nat
  failed : Nat
  deferred : Nat
  scheduled : Nat
deriving DecidableEq, Repr

/-- The sum of the six per-state counts. -/
def StateCounts.total (c : StateCounts) : Nat :=
  c.queued + c.started + c.finished + c.failed + c.deferred + c.scheduled

/-- A queue-level summary: name, per-state counts and total. -/
structure QueueRegistryStats where
  name : String
  counts : StateCounts
  total : Nat
deriving DecidableEq, Repr

/-- The six registry cardinalities of a queue read from the store. -/
def countsFor (st : Store) (q : String) : StateCounts :=
  ⟨(st.registry q .queued).length, (st.registry q .started).length,
   (st.registry q .finished).length, (st.registry q .failed).length,
   (st.registry q .deferred).length, (st.registry q .scheduled).length⟩

/-- Total number of jobs of a queue: the summed cardinality of every one of
its registries. -/
def queueTotal (st : Store) (q : String) : Nat :=
  (JobState.all.map (fun s => (st.registry q s).length)).sum

/-- Modelled from the spec: `get_job_registry_amount` of the Queue Stats
Aggregator (utils/queues.py is absent from the sources).  For every known
queue, reads each registry cardinality independently and assembles
name, counts and total. -/
def get_job_registry_amount (st : Store) : List QueueRegistryStats :=
  (sortQueueNames st.queues).map
    (fun q => ⟨q, countsFor st q, queueTotal st q⟩)

/-- The queues a deletion of this job targets: the queue of its record when
the record still exists, otherwise every known queue as a fallback. -/
def deleteTargets (st : Store) (id : String) : List String :=
  match st.jobRecord id with
  | some r => [r.queue_name]
  | none => st.queues

/-- Whether the job is still present at all: a primary record, or membership
in some registry of a targeted queue. -/
def jobPresent (st : Store) (id : String) : Bool :=
  (st.jobRecord id).isSome ||
    (deleteTargets st id).any
      (fun q => JobState.all.any (fun s => decide (id ∈ st.registry q s)))

/-- Modelled from the spec: the store mutation of `delete_job_id` of the Job
Deleter (utils/jobs.py is absent from the sources).  Removes the id from
every state registry of the targeted queues and deletes the primary record;
absence in a given registry is not an error.  Returns the ids actually
removed: the id itself when anything was present, otherwise nothing. -/
def deleteJobPure (st : Store) (id : String) : List String × Store :=
  let targets := deleteTargets st id
  let present := jobPresent st id
  let st2 : Store :=
    { st with
      registry := fun q s =>
        if q ∈ targets then (st.registry q s).filter (fun j => j != id)
        else st.registry q s,
      jobRecord := fun j => if j = id then none else st.jobRecord j }
  (if present then [id] else [], st2)

/-- Modelled from the spec: `delete_job_id` of the Job Deleter.  Fails only
when the store is unreachable; a job already gone is a success with an empty
removed-id list. -/
def delete_job_id (st : Store) (id : String) :
    Except CoreError (List String × Store) :=
  if st.reachable then .ok (deleteJobPure st id)
  else .error .serviceUnavailable

/-- A job is gone: no primary record and no membership in any registry of
any known queue. -/
def JobGone (st : Store) (id : String) : Prop :=
  st.jobRecord id = none ∧ ∀ q ∈ st.queues, ∀ s, id ∉ st.registry q s

/-- Sequentially delete the listed job ids, collecting the ids actually
removed. -/
def deleteEach : List String → Store → List String × Store
  | [], st => ([], st)
  | i :: rest, st =>
    let r := deleteJobPure st i
    let rs := deleteEach rest r.2
    (r.1 ++ rs.1, rs.2)

/-- Every job id across every registry of the queue, in registry-kind then
registry order. -/
def enumerateQueue (st : Store) (q : String) : List String :=
  JobState.all.flatMap (fun s => st.registry q s)

/-- Modelled from the spec: `delete_jobs_for_queue` of the Queue Bulk
Deleter (utils/queues.py is absent from the sources).  Enumerates every id
across every registry of the queue, invokes the job deleter for each, and
returns the ids actually found and removed. -/
def delete_jobs_for_queue (st : Store) (q : String) :
    Except CoreError (List String × Store) :=
  if st.reachable then .ok (deleteEach (enumerateQueue st q) st)
  else .error .serviceUnavailable

/-- Modelled from the spec: `get_workers` of the Worker Reporter
(utils/workers.py is absent from the sources).  Reads the worker-name
registry in order; a name whose hash record is missing is silently
skipped. -/
def get_workers (st : Store) : List WorkerData :=
  st.workerNames.filterMap
    (fun n => (st.workerHash n).map (fun i => ⟨n, i⟩))

/-! Facade definitions, embedded from rq_dashboard_fast.py. -/

/-- The configured HTTP Basic credentials of the dashboard. -/
structure AuthConfig where
  username : String
  password : String
deriving DecidableEq, Repr

/-- The constructor defaults of RedisQueueDashboard: username "admin",
password "admin" (rq_dashboard_fast.py lines 35 to 36). -/
def defaultAuth : AuthConfig := ⟨"admin", "admin"⟩

/-- Functional behaviour of secrets.compare_digest on strings: equality. -/
def compare_digest (a b : String) : Bool := a == b

/-- An HTTP error response as raised by HTTPException: status code, detail
message and extra headers. -/
structure HTTPError where
  status_code : Nat
  detail : String
  headers : List (String × String)
deriving DecidableEq, Repr

/-- verify_credentials (rq_dashboard_fast.py lines 59 to 70): compares the
supplied username and password against the configured ones and raises 401
with a WWW-Authenticate Basic header unless both match. -/
def verify_credentials (cfg : AuthConfig) (u p : String) :
    Except HTTPError String :=
  let correct_username := compare_digest u cfg.username
  let correct_password := compare_digest p cfg.password
  if correct_username && correct_password then .ok u
  else .error ⟨401, "Incorrect username or password",
               [("WWW-Authenticate", "Basic")]⟩

/-- One routed endpoint of the facade: method, path, whether it lists
Depends(verify_credentials), and the fixed detail of its 500 handler. -/
structure Endpoint where
  method : String
  path : String
  requiresAuth : Bool
  errorDetail : String
deriving DecidableEq, Repr

/-- The routing table of RedisQueueDashboard, one entry per route decorator
of rq_dashboard_fast.py, in source order. -/
def endpoints : List Endpoint :=
  [⟨"GET", "/", true,
    "An error occurred while loading the base template."⟩,
   ⟨"GET", "/workers", true,
    "An error occurred while reading workers."⟩,
   ⟨"GET", "/workers/json", true,
    "An error occurred while reading worker data in json."⟩,
   ⟨"DELETE", "/queues/\x7bqueue_name\x7d", true,
    "An error occurred while deleting jobs in queue."⟩,
   ⟨"GET", "/queues", true,
    "An error occurred reading queues data template."⟩,
   ⟨"GET", "/queues/json", true,
    "An error occurred reading queues data json."⟩,
   ⟨"GET", "/jobs", true,
    "An error occurred reading jobs data template."⟩,
   ⟨"GET", "/jobs/json", true,
    "An error occurred reading jobs data json."⟩,
   ⟨"GET", "/job/\x7bjob_id\x7d", true,
    "An error occurred fetching a specific job."⟩,
   ⟨"DELETE", "/job/\x7bjob_id\x7d", true,
    "An error occurred while deleting a job."⟩]

/-- The try/except body common to every endpoint of the facade: a core
result is passed through, any core exception is turned into an
HTTPException with status 500 and the fixed detail of that endpoint. -/
def endpointWrap {α : Type} (detail : String) (core : Except CoreError α) :
    Except HTTPError α :=
  match core with
  | .ok a => .ok a
  | .error _ => .error ⟨500, detail, []⟩

/-- Default query values of the jobs endpoints (rq_dashboard_fast.py lines
223 to 225): queue_name "all", state "all", page 1. -/
def readJobsDefaults : String × String × Int := ("all", "all", 1)

/-! Concrete stores used to exercise the operations. -/

/-- Registries of the demonstration store: the queued registry of queue
"default" holds j1, j2, j3; every other registry is empty. -/
def demoRegistry (q : String) (s : JobState) : List String :=
  if q = "default" ∧ s = JobState.queued then ["j1", "j2", "j3"] else []

/-- A record whose args blob fails to deserialize while the other fields are
fine. -/
def demoRecord : JobRecord :=
  ⟨"default", .queued, "tasks.send", Blob.bad, Blob.good "kw", Blob.good "rv",
   some 5⟩

/-- The demonstration store: one queue "default" with three queued jobs, one
job record with a corrupt args blob, and three worker names of which the
second has an expired hash record. -/
def demoStore : Store :=
  { reachable := true
    queues := ["default"]
    registry := demoRegistry
    jobRecord := fun i => if i = "jr" then some demoRecord else none
    workerNames := ["w1", "w2", "w3"]
    workerHash := fun n =>
      if n = "w1" then some ⟨"idle", ["default"], none⟩
      else if n = "w3" then some ⟨"busy", ["default"], some "j1"⟩
      else none }

/-- The demonstration store is well formed. -/
lemma demoStore_WF : demoStore.WF := by
  constructor
  · intro id r h q s hm
    by_cases hid : id = "jr"
    · subst hid
      unfold demoStore demoRegistry at hm
      simp only at hm
      split at hm
      · simp at hm
      · simp at hm
    · exfalso
      unfold demoStore at h
      simp only [if_neg hid] at h
      exact Option.noConfusion h
  · intro q s hne
    unfold demoStore demoRegistry at hne ⊢
    simp only at hne
    split at hne
    · next hc => simp [hc.1]
    · exact absurd rfl hne

/-- Every job state is listed in JobState.all. -/
lemma JobState.mem_all (s : JobState) : s ∈ JobState.all := by
  cases s <;> simp [JobState.all]

/-! Lemmas on the single-job deleter. -/

lemma deleteJobPure_snd_registry (st : Store) (id q : String) (s : JobState) :
    ((deleteJobPure st id).2).registry q s =
      if q ∈ deleteTargets st id then
        (st.registry q s).filter (fun j => j != id)
      else st.registry q s := rfl

lemma deleteJobPure_snd_jobRecord (st : Store) (id j : String) :
    ((deleteJobPure st id).2).jobRecord j =
      if j = id then none else st.jobRecord j := rfl

lemma deleteJobPure_snd_reachable (st : Store) (id : String) :
    ((deleteJobPure st id).2).reachable = st.reachable := rfl

lemma deleteJobPure_snd_queues (st : Store) (id : String) :
    ((deleteJobPure st id).2).queues = st.queues := rfl

lemma deleteJobPure_fst (st : Store) (id : String) :
    (deleteJobPure st id).1 = if jobPresent st id then [id] else [] := rfl

lemma mem_registry_deleteJobPure {st : Store} {id q : String} {s : JobState}
    {j : String} (h : j ∈ ((deleteJobPure st id).2).registry q s) :
    j ∈ st.registry q s := by
  rw [deleteJobPure_snd_registry] at h
  split at h
  · exact (List.mem_filter.mp h).1
  · exact h

lemma not_mem_registry_deleteJobPure_self {st : Store} {id : String}
    (hWF : st.WF) (q : String) (s : JobState) :
    id ∉ ((deleteJobPure st id).2).registry q s := by
  intro hm
  rw [deleteJobPure_snd_registry] at hm
  split at hm
  · have hb := (List.mem_filter.mp hm).2
    simp at hb
  · next hq =>
    cases hrec : st.jobRecord id with
    | some r =>
      have hq2 := hWF.1 id r hrec q s hm
      apply hq
      unfold deleteTargets
      rw [hrec]
      simp [hq2]
    | none =>
      have hqin := hWF.2 q s (List.ne_nil_of_mem hm)
      apply hq
      unfold deleteTargets
      rw [hrec]
      exact hqin

lemma not_mem_registry_deleteJobPure_mono {st : Store} {id q : String}
    {s : JobState} {j : String} (h : j ∉ st.registry q s) :
    j ∉ ((deleteJobPure st id).2).registry q s :=
  fun hm => h (mem_registry_deleteJobPure hm)

lemma deleteJobPure_WF {st : Store} {id : String} (hWF : st.WF) :
    ((deleteJobPure st id).2).WF := by
  constructor
  · intro jid r h q s hm
    rw [deleteJobPure_snd_jobRecord] at h
    split at h
    · exact absurd h (by simp)
    · exact hWF.1 jid r h q s (mem_registry_deleteJobPure hm)
  · intro q s hne
    have hne0 : st.registry q s ≠ [] := by
      intro h0
      apply hne
      rw [deleteJobPure_snd_registry, h0]
      split <;> rfl
    exact hWF.2 q s hne0

lemma jobPresent_true_iff (st : Store) (j : String) :
    jobPresent st j = true ↔
      ((st.jobRecord j).isSome = true ∨
        ∃ q ∈ deleteTargets st j, ∃ s, j ∈ st.registry q s) := by
  unfold jobPresent
  simp only [Bool.or_eq_true, List.any_eq_true, decide_eq_true_eq]
  constructor
  · rintro (h | ⟨q, hq, s, _, hm⟩)
    · exact Or.inl h
    · exact Or.inr ⟨q, hq, s, hm⟩
  · rintro (h | ⟨q, hq, s, hm⟩)
    · exact Or.inl h
    · exact Or.inr ⟨q, hq, s, JobState.mem_all s, hm⟩

lemma jobPresent_false_of_gone {st : Store} {id : String}
    (h : JobGone st id) : jobPresent st id = false := by
  obtain ⟨hrec, hmem⟩ := h
  apply Bool.eq_false_iff.mpr
  intro htrue
  rcases (jobPresent_true_iff st id).mp htrue with hs | ⟨q, hq, s, hm⟩
  · rw [hrec] at hs
    simp at hs
  · unfold deleteTargets at hq
    rw [hrec] at hq
    exact hmem q hq s hm

lemma gone_after_deleteJobPure {st : Store} {id : String} (hWF : st.WF) :
    JobGone ((deleteJobPure st id).2) id := by
  constructor
  · rw [deleteJobPure_snd_jobRecord]
    simp
  · intro q _ s
    exact not_mem_registry_deleteJobPure_self hWF q s

lemma jobPresent_preserved {st : Store} {i j : String} (hne : j ≠ i)
    (hp : jobPresent st j = true) :
    jobPresent ((deleteJobPure st i).2) j = true := by
  rw [jobPresent_true_iff] at hp ⊢
  have hrec : ((deleteJobPure st i).2).jobRecord j = st.jobRecord j := by
    rw [deleteJobPure_snd_jobRecord, if_neg hne]
  rcases hp with hs | ⟨q, hq, s, hm⟩
  · left
    rw [hrec]
    exact hs
  · cases hj : st.jobRecord j with
    | some r =>
      left
      rw [hrec, hj]
      rfl
    | none =>
      right
      have htarg : deleteTargets ((deleteJobPure st i).2) j = st.queues := by
        unfold deleteTargets
        rw [hrec, hj]
        rfl
      have hq2 : q ∈ st.queues := by
        unfold deleteTargets at hq
        rw [hj] at hq
        exact hq
      refine ⟨q, ?_, s, ?_⟩
      · rw [htarg]
        exact hq2
      · rw [deleteJobPure_snd_registry]
        split
        · exact List.mem_filter.mpr ⟨hm, by simp [hne]⟩
        · exact hm

/-! Lemmas on the bulk deleter fold. -/

lemma deleteEach_snd_reachable (ids : List String) (st : Store) :
    ((deleteEach ids st).2).reachable = st.reachable := by
  induction ids generalizing st with
  | nil => rfl
  | cons a rest ih =>
    simp only [deleteEach]
    rw [ih, deleteJobPure_snd_reachable]

lemma deleteEach_snd_queues (ids : List String) (st : Store) :
    ((deleteEach ids st).2).queues = st.queues := by
  induction ids generalizing st with
  | nil => rfl
  | cons a rest ih =>
    simp only [deleteEach]
    rw [ih, deleteJobPure_snd_queues]

lemma mem_registry_deleteEach {ids : List String} {q : String}
    {s : JobState} {j : String} :
    ∀ {st : Store}, j ∈ ((deleteEach ids st).2).registry q s →
      j ∈ st.registry q s := by
  induction ids with
  | nil => intro st h; exact h
  | cons a rest ih =>
    intro st h
    simp only [deleteEach] at h
    exact mem_registry_deleteJobPure (ih h)

lemma not_mem_registry_deleteEach_mono {ids : List String} {st : Store}
    {q : String} {s : JobState} {j : String} (h : j ∉ st.registry q s) :
    j ∉ ((deleteEach ids st).2).registry q s :=
  fun hm => h (mem_registry_deleteEach hm)

lemma deleteEach_WF {ids : List String} :
    ∀ {st : Store}, st.WF → ((deleteEach ids st).2).WF := by
  induction ids with
  | nil => intro st h; exact h
  | cons a rest ih =>
    intro st hWF
    simp only [deleteEach]
    exact ih (deleteJobPure_WF hWF)

lemma deleteEach_removes {i : String} (ids : List String) :
    ∀ st : Store, st.WF → i ∈ ids → ∀ q s,
      i ∉ ((deleteEach ids st).2).registry q s := by
  induction ids with
  | nil =>
    intro st _ hmem
    simp at hmem
  | cons a rest ih =>
    intro st hWF hmem q s
    simp only [deleteEach]
    by_cases hia : i = a
    · subst hia
      exact not_mem_registry_deleteEach_mono
        (not_mem_registry_deleteJobPure_self hWF q s)
    · have hr : i ∈ rest := by
        rcases List.mem_cons.mp hmem with h | h
        · exact absurd h hia
        · exact h
      exact ih ((deleteJobPure st a).2) (deleteJobPure_WF hWF) hr q s

lemma mem_fst_deleteEach {j : String} (ids : List String) :
    ∀ st : Store, j ∈ (deleteEach ids st).1 → j ∈ ids := by
  induction ids with
  | nil =>
    intro st h
    simp [deleteEach] at h
  | cons a rest ih =>
    intro st h
    simp only [deleteEach, List.mem_append] at h
    rcases h with h | h
    · rw [deleteJobPure_fst] at h
      split at h
      · rw [List.mem_singleton] at h
        simp [h]
      · simp at h
    · exact List.mem_cons_of_mem a (ih _ h)

lemma mem_fst_deleteEach_complete {j : String} (ids : List String) :
    ∀ st : Store, st.WF → j ∈ ids → jobPresent st j = true →
      j ∈ (deleteEach ids st).1 := by
  induction ids with
  | nil =>
    intro st _ hmem _
    simp at hmem
  | cons a rest ih =>
    intro st hWF hmem hp
    simp only [deleteEach, List.mem_append]
    by_cases hja : j = a
    · subst hja
      left
      simp [deleteJobPure_fst, hp]
    · right
      have hr : j ∈ rest := by
        rcases List.mem_cons.mp hmem with h | h
        · exact absurd h hja
        · exact h
      exact ih _ (deleteJobPure_WF hWF) hr (jobPresent_preserved hja hp)

/-- The id "ghost" is gone from the demonstration store: it has no record
and no registry membership. -/
lemma ghost_gone : JobGone demoStore "ghost" := by
  constructor
  · rfl
  · intro q hq s hm
    have hqd : q = "default" := by simpa [demoStore] using hq
    subst hqd
    cases s <;> simp [demoStore, demoRegistry] at hm

/-- A successful delete of a gone job returns the empty removed-id list. -/
lemma delete_job_id_of_gone {st : Store} {id : String}
    (hr : st.reachable = true) (hg : JobGone st id) :
    delete_job_id st id = Except.ok ([], (deleteJobPure st id).2) := by
  unfold delete_job_id
  rw [if_pos hr]
  have h1 : (deleteJobPure st id).1 = [] := by
    rw [deleteJobPure_fst, jobPresent_false_of_gone hg]
    rfl
  have h2 : deleteJobPure st id =
      ((deleteJobPure st id).1, (deleteJobPure st id).2) := rfl
  rw [h2, h1]

/-- Claim C1: delete_job is idempotent.  If the job is already gone (no
record and no registry membership) the delete succeeds with an empty
removed-id list; a second delete right after a first one succeeds with an
empty removed-id list; and the operation returns an error exactly when the
store is unreachable, and that error is serviceUnavailable. -/
theorem delete_job_idempotent (st : Store) (id : String) (hWF : st.WF)
    (hr : st.reachable = true) :
    (JobGone st id →
      delete_job_id st id = Except.ok ([], (deleteJobPure st id).2)) ∧
    (∀ r1 st1, delete_job_id st id = Except.ok (r1, st1) →
      delete_job_id st1 id = Except.ok ([], (deleteJobPure st1 id).2)) ∧
    (∀ (st0 : Store) (e : CoreError),
      delete_job_id st0 id = Except.error e ↔
        (st0.reachable = false ∧ e = CoreError.serviceUnavailable)) := by
  refine ⟨fun hg => delete_job_id_of_gone hr hg, ?_, ?_⟩
  · intro r1 st1 h
    unfold delete_job_id at h
    rw [if_pos hr] at h
    injection h with h2
    have hst1 : st1 = (deleteJobPure st id).2 := (congrArg Prod.snd h2).symm
    subst hst1
    have hr1 : ((deleteJobPure st id).2).reachable = true := by
      rw [deleteJobPure_snd_reachable]
      exact hr
    exact delete_job_id_of_gone hr1 (gone_after_deleteJobPure hWF)
  · intro st0 e
    unfold delete_job_id
    constructor
    · intro h
      split at h
      · exact absurd h (by simp)
      · next hnr =>
        injection h with he
        exact ⟨by simpa using hnr, he.symm⟩
    · rintro ⟨hf, he⟩
      rw [if_neg (by simp [hf]), he]

/-- The C1 theorem applied at the demonstration store and an absent id. -/
theorem delete_job_idempotent_witness :
    delete_job_id demoStore "ghost" =
      Except.ok ([], (deleteJobPure demoStore "ghost").2) :=
  (delete_job_idempotent demoStore "ghost" demoStore_WF rfl).1 ghost_gone

/-- Claim C5: delete_job returns the list of ids actually removed: the id
itself when the job was present in any form, nothing otherwise; in
particular when the primary record existed the returned list contains the
id. -/
theorem delete_job_returns_removed (st : Store) (id : String)
    (hr : st.reachable = true) :
    (∀ removed st1, delete_job_id st id = Except.ok (removed, st1) →
      removed = if jobPresent st id then [id] else []) ∧
    ((st.jobRecord id).isSome = true →
      ∀ removed st1, delete_job_id st id = Except.ok (removed, st1) →
        id ∈ removed) := by
  have key : ∀ removed st1, delete_job_id st id = Except.ok (removed, st1) →
      removed = (deleteJobPure st id).1 := by
    intro removed st1 h
    unfold delete_job_id at h
    rw [if_pos hr] at h
    injection h with h2
    exact (congrArg Prod.fst h2).symm
  constructor
  · intro removed st1 h
    rw [key removed st1 h, deleteJobPure_fst]
  · intro hs removed st1 h
    rw [key removed st1 h, deleteJobPure_fst]
    have hp : jobPresent st id = true := by
      unfold jobPresent
      rw [hs]
      rfl
    simp [hp]

/-- The C5 theorem applied at the demonstration store and the id whose
record exists. -/
theorem delete_job_returns_removed_witness :
    "jr" ∈ (deleteJobPure demoStore "jr").1 :=
  (delete_job_returns_removed demoStore "jr" rfl).2 rfl
    (deleteJobPure demoStore "jr").1 (deleteJobPure demoStore "jr").2 rfl

/-- Claim C7: the bulk deleter of a queue removes exactly the ids
enumerated across every registry of the queue, returns them, and a stats
read on the resulting store shows every per-state count of that queue at
zero. -/
theorem delete_jobs_for_queue_spec (st : Store) (q : String) (hWF : st.WF)
    (hr : st.reachable = true) :
    ∀ removed st1, delete_jobs_for_queue st q = Except.ok (removed, st1) →
      (∀ j, j ∈ removed ↔ j ∈ enumerateQueue st q) ∧
      (∀ s, st1.registry q s = []) ∧
      (∀ stat ∈ get_job_registry_amount st1, stat.name = q →
        stat.counts = ⟨0, 0, 0, 0, 0, 0⟩ ∧ stat.total = 0) := by
  intro removed st1 h
  unfold delete_jobs_for_queue at h
  rw [if_pos hr] at h
  injection h with h2
  have hrm : removed = (deleteEach (enumerateQueue st q) st).1 :=
    (congrArg Prod.fst h2).symm
  have hst : st1 = (deleteEach (enumerateQueue st q) st).2 :=
    (congrArg Prod.snd h2).symm
  subst hrm
  subst hst
  have hemp : ∀ s,
      ((deleteEach (enumerateQueue st q) st).2).registry q s = [] := by
    intro s
    rw [List.eq_nil_iff_forall_not_mem]
    intro j hj
    have hj0 : j ∈ st.registry q s := mem_registry_deleteEach hj
    have hje : j ∈ enumerateQueue st q := by
      unfold enumerateQueue
      rw [List.mem_flatMap]
      exact ⟨s, JobState.mem_all s, hj0⟩
    exact deleteEach_removes (enumerateQueue st q) st hWF hje q s hj
  refine ⟨?_, hemp, ?_⟩
  · intro j
    constructor
    · exact fun hj => mem_fst_deleteEach (enumerateQueue st q) st hj
    · intro hj
      apply mem_fst_deleteEach_complete (enumerateQueue st q) st hWF hj
      obtain ⟨s, _, hm⟩ : ∃ s ∈ JobState.all, j ∈ st.registry q s := by
        unfold enumerateQueue at hj
        simpa [List.mem_flatMap] using hj
      rw [jobPresent_true_iff]
      cases hrec : st.jobRecord j with
      | some r =>
        left
        rfl
      | none =>
        right
        refine ⟨q, ?_, s, hm⟩
        unfold deleteTargets
        rw [hrec]
        exact hWF.2 q s (List.ne_nil_of_mem hm)
  · intro stat hstat hname
    unfold get_job_registry_amount at hstat
    rw [List.mem_map] at hstat
    obtain ⟨q0, _, hq0⟩ := hstat
    have hqq : q0 = q := by
      rw [← hq0] at hname
      exact hname
    subst hqq
    rw [← hq0]
    constructor
    · simp [countsFor, hemp]
    · simp [queueTotal, JobState.all, hemp]

/-- The C7 theorem applied at the demonstration store: after a bulk delete
of queue "default" its queued registry is empty. -/
theorem delete_jobs_for_queue_spec_witness :
    ((deleteEach (enumerateQueue demoStore "default") demoStore).2).registry
      "default" JobState.queued = [] :=
  ((delete_jobs_for_queue_spec demoStore "default" demoStore_WF rfl
      (deleteEach (enumerateQueue demoStore "default") demoStore).1
      (deleteEach (enumerateQueue demoStore "default") demoStore).2
      rfl).2.1) JobState.queued

/-- Claim C2: every queue summary produced by the stats aggregator has its
total equal to the sum of its six per-state counts, the counts having
exactly the keys queued, started, finished, failed, deferred, scheduled. -/
theorem queue_stats_total_eq_sum (st : Store) (stat : QueueRegistryStats)
    (h : stat ∈ get_job_registry_amount st) :
    stat.counts.total = stat.total := by
  unfold get_job_registry_amount at h
  rw [List.mem_map] at h
  obtain ⟨q, _, hq⟩ := h
  rw [← hq]
  show (countsFor st q).total = queueTotal st q
  simp only [countsFor, StateCounts.total, queueTotal, JobState.all,
    List.map_cons, List.map_nil, List.sum_cons, List.sum_nil]
  ring

/-- The C2 theorem applied at the demonstration store. -/
theorem queue_stats_total_eq_sum_witness :
    (⟨"default", ⟨3, 0, 0, 0, 0, 0⟩, 3⟩ : QueueRegistryStats).counts.total =
      (⟨"default", ⟨3, 0, 0, 0, 0, 0⟩, 3⟩ : QueueRegistryStats).total :=
  queue_stats_total_eq_sum demoStore ⟨"default", ⟨3, 0, 0, 0, 0, 0⟩, 3⟩
    (by decide)

/-- Claim C3: registry pagination clamps page numbers to at least 1, an
out-of-range page gives an empty id list with the true total cardinality,
and over a registry holding j1, j2, j3 with page size 2 page 1 gives j1, j2
with total 3 while page 2 gives j3 with total 3. -/
theorem list_registry_page_spec :
    (∀ (st : Store) (q : String) (s : JobState) (p : Int) (n : Nat),
      p ≤ 1 → list_registry_page st q s p n = list_registry_page st q s 1 n) ∧
    (∀ (st : Store) (q : String) (s : JobState) (p : Int) (n : Nat),
      (st.registry q s).length ≤ (clampPage p - 1) * n →
      list_registry_page st q s p n = ([], (st.registry q s).length)) ∧
    (list_registry_page demoStore "default" JobState.queued 1 2 =
        (["j1", "j2"], 3) ∧
      list_registry_page demoStore "default" JobState.queued 2 2 =
        (["j3"], 3)) := by
  refine ⟨?_, ?_, by decide⟩
  · intro st q s p n hp
    unfold list_registry_page paginate
    have hc : clampPage p = 1 := by
      unfold clampPage
      rw [max_eq_right hp]
      rfl
    rw [hc]
    rfl
  · intro st q s p n hlen
    unfold list_registry_page paginate
    rw [List.drop_eq_nil_of_le hlen]
    simp

/-- The C3 theorem applied at the demonstration store: page 0 is clamped to
page 1. -/
theorem list_registry_page_spec_witness :
    list_registry_page demoStore "default" JobState.queued 0 2 =
      list_registry_page demoStore "default" JobState.queued 1 2 :=
  list_registry_page_spec.1 demoStore "default" JobState.queued 0 2 (by decide)

/-- Claim C4: the state filter "all" selects exactly the queued registry, a
specific queue name restricts the listing to that queue, the queue filter
"all" unions every known queue in queue-name order, and the endpoint
defaults are queue "all", state "all", page 1. -/
theorem get_jobs_filter_semantics :
    (∀ (st : Store) (qf : String) (p : Int) (n : Nat),
      get_jobs st qf "all" p n = get_jobs st qf "queued" p n) ∧
    (∀ (st : Store) (q sf : String) (s : JobState) (p : Int) (n : Nat),
      st.reachable = true → q ≠ "all" → q ∈ st.queues →
      resolveState sf = some s →
      get_jobs st q sf p n =
        Except.ok ⟨paginate (st.registry q s) p n,
          (st.registry q s).length⟩) ∧
    (∀ (st : Store) (sf : String) (s : JobState) (p : Int) (n : Nat),
      st.reachable = true → resolveState sf = some s →
      get_jobs st "all" sf p n =
        Except.ok ⟨paginate ((sortQueueNames st.queues).flatMap
            (fun q => st.registry q s)) p n,
          ((sortQueueNames st.queues).flatMap
            (fun q => st.registry q s)).length⟩) ∧
    readJobsDefaults = ("all", "all", 1) := by
  refine ⟨?_, ?_, ?_, rfl⟩
  · intro st qf p n
    unfold get_jobs
    have h1 : resolveState "all" = some JobState.queued := rfl
    have h2 : resolveState "queued" = some JobState.queued := rfl
    rw [h1, h2]
  · intro st q sf s p n hr hq hqin hsf
    unfold get_jobs
    rw [if_neg (by simp [hr]), hsf]
    dsimp only
    rw [if_neg (fun hcon : q ≠ "all" ∧ q ∉ st.queues => hcon.2 hqin)]
    have hrq : resolveQueues st q = [q] := by
      unfold resolveQueues
      rw [if_neg hq]
    simp [hrq]
  · intro st sf s p n hr hsf
    unfold get_jobs
    rw [if_neg (by simp [hr]), hsf]
    dsimp only
    rw [if_neg (by simp)]
    rfl

/-- The C4 theorem applied at the demonstration store: the filter pair
(specific queue, "all") lists the queued registry of that queue. -/
theorem get_jobs_filter_semantics_witness :
    get_jobs demoStore "default" "all" 1 2 =
      Except.ok ⟨paginate (demoStore.registry "default" JobState.queued) 1 2,
        (demoStore.registry "default" JobState.queued).length⟩ :=
  get_jobs_filter_semantics.2.1 demoStore "default" "all" JobState.queued 1 2
    rfl (by decide) (by decide) rfl

/-- Claim C6: an absent record key makes get_job fail with notFound, while
a record any of whose args, kwargs or result blobs fails to deserialize
still yields a JobDataDetailed in which that field is none and the
data-corruption marker is set, instead of aborting the whole response. -/
theorem get_job_error_behaviour (st : Store) (id : String)
    (hr : st.reachable = true) :
    (st.jobRecord id = none →
      get_job st id = Except.error CoreError.notFound) ∧
    (∀ r, st.jobRecord id = some r → (get_job st id).isOk = true) ∧
    (∀ r d, st.jobRecord id = some r → get_job st id = Except.ok d →
      (r.args = Blob.bad → d.args = none ∧ d.corruption = true) ∧
      (r.kwargs = Blob.bad → d.kwargs = none ∧ d.corruption = true) ∧
      (r.result = Blob.bad → d.result = none ∧ d.corruption = true)) := by
  refine ⟨?_, ?_, ?_⟩
  · intro hn
    unfold get_job
    rw [if_neg (by simp [hr]), hn]
  · intro r hs
    unfold get_job
    rw [if_neg (by simp [hr]), hs]
    rfl
  · intro r d hs h
    unfold get_job at h
    rw [if_neg (by simp [hr]), hs] at h
    injection h with hd
    subst hd
    refine ⟨fun hbad => ⟨?_, ?_⟩, fun hbad => ⟨?_, ?_⟩, fun hbad => ⟨?_, ?_⟩⟩
    · show r.args.decode = none
      rw [hbad]
      rfl
    · show (r.args.decode.isNone || r.kwargs.decode.isNone ||
        r.result.decode.isNone) = true
      rw [hbad]
      simp [Blob.decode]
    · show r.kwargs.decode = none
      rw [hbad]
      rfl
    · show (r.args.decode.isNone || r.kwargs.decode.isNone ||
        r.result.decode.isNone) = true
      rw [hbad]
      simp [Blob.decode]
    · show r.result.decode = none
      rw [hbad]
      rfl
    · show (r.args.decode.isNone || r.kwargs.decode.isNone ||
        r.result.decode.isNone) = true
      rw [hbad]
      simp [Blob.decode]

/-- The C6 theorem applied at the demonstration store: the absent id fails
with notFound, and the id with the corrupt args blob still succeeds with
args reported none and the corruption marker set. -/
theorem get_job_error_behaviour_witness :
    get_job demoStore "ghost" = Except.error CoreError.notFound ∧
    (get_job demoStore "jr").isOk = true ∧
    ((⟨"jr", "default", JobState.queued, "tasks.send", none, some "kw",
        some "rv", true⟩ : JobDataDetailed).args = none ∧
      (⟨"jr", "default", JobState.queued, "tasks.send", none, some "kw",
        some "rv", true⟩ : JobDataDetailed).corruption = true) :=
  ⟨(get_job_error_behaviour demoStore "ghost" rfl).1 rfl,
   (get_job_error_behaviour demoStore "jr" rfl).2.1 demoRecord rfl,
   ((get_job_error_behaviour demoStore "jr" rfl).2.2 demoRecord
      ⟨"jr", "default", JobState.queued, "tasks.send", none, some "kw",
        some "rv", true⟩ rfl rfl).1 rfl⟩

/-- Claim C8: the worker reporter lists exactly the names of the worker
registry whose hash record is present, in registry order; a missing hash
record silently drops that worker. -/
theorem get_workers_spec (st : Store) :
    (get_workers st).map WorkerData.name =
      st.workerNames.filter (fun n => (st.workerHash n).isSome) := by
  unfold get_workers
  induction st.workerNames with
  | nil => rfl
  | cons a rest ih =>
    simp only [List.filterMap_cons, List.filter_cons]
    cases h : st.workerHash a with
    | none => simpa [h] using ih
    | some i => simpa [h] using ih

/-- Claim C9: every facade endpoint lists the credential check, the check
rejects with a 401 carrying a WWW-Authenticate Basic header exactly when the
supplied username or password differs from the configured ones, and under
the constructor defaults the accepted pair is exactly admin with admin. -/
theorem verify_credentials_spec :
    (∀ (cfg : AuthConfig) (u p : String) (e : HTTPError),
      verify_credentials cfg u p = Except.error e ↔
        ((u ≠ cfg.username ∨ p ≠ cfg.password) ∧
          e = ⟨401, "Incorrect username or password",
               [("WWW-Authenticate", "Basic")]⟩)) ∧
    (∀ u p, verify_credentials defaultAuth u p = Except.ok u ↔
      (u = "admin" ∧ p = "admin")) ∧
    (∀ ep ∈ endpoints, ep.requiresAuth = true) := by
  refine ⟨?_, ?_, by decide⟩
  · intro cfg u p e
    unfold verify_credentials compare_digest
    dsimp only
    split
    · next hcond =>
      rw [Bool.and_eq_true, beq_iff_eq, beq_iff_eq] at hcond
      constructor
      · intro h
        exact absurd h (by simp)
      · rintro ⟨hne, _⟩
        rcases hne with h | h
        · exact absurd hcond.1 h
        · exact absurd hcond.2 h
    · next hcond =>
      rw [Bool.and_eq_true, beq_iff_eq, beq_iff_eq] at hcond
      constructor
      · intro h
        injection h with he
        refine ⟨?_, he.symm⟩
        by_cases hu : u = cfg.username
        · right
          intro hp
          exact hcond ⟨hu, hp⟩
        · left
          exact hu
      · rintro ⟨_, he⟩
        rw [he]
  · intro u p
    unfold verify_credentials compare_digest
    by_cases hu : u = "admin"
    · by_cases hp : p = "admin"
      · simp [defaultAuth, hu, hp]
      · simp [defaultAuth, hu, hp]
    · simp [defaultAuth, hu]

/-- The C9 theorem applied at the default configuration and the default
credentials. -/
theorem verify_credentials_spec_witness :
    verify_credentials defaultAuth "admin" "admin" = Except.ok "admin" :=
  (verify_credentials_spec.2.1 "admin" "admin").mpr ⟨rfl, rfl⟩

/-- Claim C10: every facade endpoint maps any core exception to a 500
response with its fixed detail message and passes successes through; an
error produced by the endpoint wrapper always has status 500 with that
detail, never any other status. -/
theorem endpoint_error_mapping :
    (∀ ep ∈ endpoints, ∀ (α : Type) (err : CoreError),
      @endpointWrap α ep.errorDetail (Except.error err) =
        Except.error ⟨500, ep.errorDetail, []⟩) ∧
    (∀ (α : Type) (d : String) (c : Except CoreError α) (h : HTTPError),
      @endpointWrap α d c = Except.error h →
        h.status_code = 500 ∧ h.detail = d) ∧
    (∀ (α : Type) (d : String) (a : α),
      @endpointWrap α d (Except.ok a) = Except.ok a) := by
  refine ⟨fun ep _ α err => rfl, ?_, fun α d a => rfl⟩
  intro α d c h hw
  cases c with
  | ok a =>
    exact absurd hw (by simp [endpointWrap])
  | error e =>
    unfold endpointWrap at hw
    injection hw with he
    rw [← he]
    exact ⟨rfl, rfl⟩

/-- The C10 theorem applied at the delete-job endpoint and a notFound core
exception. -/
theorem endpoint_error_mapping_witness :
    @endpointWrap Unit "An error occurred while deleting a job."
        (Except.error CoreError.notFound) =
      Except.error ⟨500, "An error occurred while deleting a job.", []⟩ :=
  endpoint_error_mapping.1
    ⟨"DELETE", "/job/\x7bjob_id\x7d", true,
      "An error occurred while deleting a job."⟩
    (by decide) Unit CoreError.notFound

end RQDash
